import Mathlib

/-!
Verification development for the openlings chess app backend
(`src/backend/app/services` and `src/backend/app/api/routes`).

The Python services are shallowly embedded: pure computations become Lean
functions over `ℤ`/`ℚ`/`String`/`List`; calls into external collaborators
(the UCI engine process, the `chess` library board replay, the LLM service,
`random.uniform`, `math.exp`) are abstracted as explicit function parameters
("oracles"), so that every theorem quantifies over all possible behaviors of
those collaborators; exceptions become `Except`.
-/

namespace OpenlingsChess

/-! ## Generic helpers (Python list / string semantics) -/

/-- Map with an explicit running index, mirroring Python's `enumerate(xs, start=i)`. -/
def mapWithIdx (f : ℕ → α → β) : ℕ → List α → List β
  | _, [] => []
  | i, x :: xs => f i x :: mapWithIdx f (i + 1) xs

/-- Insert one element into a descending-sorted list, keeping earlier elements
first among equal keys.  Building block of `sortDescBy`. -/
def insertDescBy (key : α → ℚ) (x : α) : List α → List α
  | [] => [x]
  | y :: ys => if key x < key y then y :: insertDescBy key x ys else x :: y :: ys

/-- Stable descending sort by a rational key.  This models Python's
`list.sort(key=..., reverse=True)`: Python's sort is stable, and a stable sort
by a fixed key is unique as a function, so insertion sort gives the same list. -/
def sortDescBy (key : α → ℚ) : List α → List α
  | [] => []
  | x :: xs => insertDescBy key x (sortDescBy key xs)

/-- Split a character list at single spaces, mirroring `str.split(" ")` on the
FEN strings handled by `chess.Board` (standard FENs are single-spaced). -/
def splitSpacesAux (cs : List Char) (acc : List Char) : List (List Char) :=
  match cs with
  | [] => [acc.reverse]
  | c :: rest =>
      if c = ' ' then acc.reverse :: splitSpacesAux rest []
      else splitSpacesAux rest (c :: acc)

def splitSpaces (cs : List Char) : List (List Char) := splitSpacesAux cs []

/-- Parse a decimal natural number, mirroring Python's `int(s)` on the FEN
fullmove field (failure on non-digits). -/
def parseNat (cs : List Char) : Option ℕ :=
  if cs ≠ [] ∧ cs.all (·.isDigit) then
    some (cs.foldl (fun n c => 10 * n + (c.toNat - 48)) 0)
  else none

/-- Whitespace recognized by Python's `str.strip()` (ASCII fragment). -/
def isSpaceChar (c : Char) : Bool := c = ' ' || c = '\t' || c = '\n' || c = '\r'

/-- Python's `str.strip()`. -/
def pyStrip (s : String) : String :=
  String.mk (((s.toList.dropWhile isSpaceChar).reverse.dropWhile isSpaceChar).reverse)

/-- Whether `needle` is an initial segment of `hay`. -/
def leadMatches : List Char → List Char → Bool
  | [], _ => true
  | _ :: _, [] => false
  | a :: as, b :: bs => a = b && leadMatches as bs

/-- Substring search over character lists. -/
def containsSub (needle : List Char) : List Char → Bool
  | [] => leadMatches needle []
  | c :: cs => leadMatches needle (c :: cs) || containsSub needle cs

/-- Python's `needle in hay` on strings. -/
def strContains (hay needle : String) : Bool := containsSub needle.toList hay.toList

/-- Python truthiness of an optional string (`None` and `""` are falsy). -/
def truthyStr : Option String → Bool
  | none => false
  | some s => !(s = "")

/-! ## StockfishService (`stockfish_service.py`)

The engine process is an external collaborator; its per-position answers are
abstracted as an `EngineOracle`.  `score fen depth` is
`info["score"].relative.score()` (`none` for a mate score), `best_move` is
`info["pv"][0]`, and `push_move fen uci` is the FEN of the `chess` library
board after pushing the move. -/

structure EngineOracle where
  score : String → ℕ → Option ℤ
  best_move : String → ℕ → Option String
  push_move : String → String → String

/-- Embeds `StockfishService._classify_move` (lines 153-164). -/
def classify_move (centipawns_lost : ℤ) : String :=
  if centipawns_lost ≤ 15 then "excellent"
  else if centipawns_lost ≤ 50 then "good"
  else if centipawns_lost ≤ 100 then "inaccuracy"
  else if centipawns_lost ≤ 300 then "mistake"
  else "blunder"

structure MoveAnalysisResult where
  move : String
  eval_before : ℤ
  eval_after : ℤ
  eval_diff : ℤ
  classification : String
  best_move : Option String
  best_eval : ℤ
  centipawns_lost : ℤ
  deriving Repr, DecidableEq

/-- Embeds `StockfishService.analyze_move` (lines 90-151).  Python's
`score() or 0` maps both `None` and `0` to `0`, i.e. `Option.getD 0`.
The engine is modeled as deterministic per (fen, depth), so the third
`analyse` call on the original position returns the same score as the first. -/
def analyze_move (eng : EngineOracle) (fen move : String) (depth : ℕ) : MoveAnalysisResult :=
  let eval_before := (eng.score fen depth).getD 0
  let fen_after := eng.push_move fen move
  let eval_after := -((eng.score fen_after depth).getD 0)
  let best_move := eng.best_move fen depth
  let best_eval := (eng.score fen depth).getD 0
  let centipawns_lost := max 0 (best_eval - eval_after)
  { move := move
    eval_before := eval_before
    eval_after := eval_after
    eval_diff := eval_after - eval_before
    classification := classify_move centipawns_lost
    best_move := best_move
    best_eval := best_eval
    centipawns_lost := centipawns_lost }

/-! ## OpeningService (`opening_service.py`)

`get_position_type` reads two facts off the `chess.Board` built from the FEN:
`len(board.piece_map())` (the number of piece letters in the placement field)
and `board.fullmove_number` (the sixth space-separated FEN field).  The FEN
parsing fragment of the `chess` library is embedded directly. -/

/-- Number of pieces on the board: count of letters in the FEN placement field. -/
def countPieces (placement : List Char) : ℕ := placement.countP (·.isAlpha)

/-- The placement field of a FEN (first space-separated field). -/
def fenPlacement (fen : String) : List Char := (splitSpaces fen.toList).headD []

/-- The fullmove number a FEN declares (sixth space-separated field), as
parsed by `chess.Board`; `none` when the FEN is malformed. -/
def fenFullmove (fen : String) : Option ℕ :=
  match splitSpaces fen.toList with
  | [_, _, _, _, _, fullmoveField] => parseNat fullmoveField
  | _ => none

/-- Embeds `OpeningService.get_position_type` (lines 56-74); `none` models a
`ValueError` from `chess.Board(fen)` on a malformed FEN. -/
def get_position_type (fen : String) : Option String :=
  (fenFullmove fen).map (fun fullmove_number =>
    if fullmove_number ≤ 10 then "opening"
    else if countPieces (fenPlacement fen) ≤ 10 then "endgame"
    else "middlegame")

/-- A FEN whose only pieces are the two kings: the placement field holds
exactly two letters, one `K` and one `k`. -/
def twoKingsOnly (fen : String) : Bool :=
  (((fenPlacement fen).filter (·.isAlpha)).length = 2)
    && (fenPlacement fen).count 'K' = 1 && (fenPlacement fen).count 'k' = 1

/-! ## MaiaService (`maia_service.py`)

`get_move_probabilities` runs the engine once per legal move (up to the first
ten) and then post-processes the evaluations.  The engine loop is abstracted:
the embedding takes the list of `(move, eval)` pairs the loop produced (one
entry per legal move, in the board's native move-generation order; a failed
single-move evaluation already appears as eval `0` per the `except` clause).
`math.exp` is abstracted as `pexp` and `random.uniform(-nf, nf)` as `noise`
(one draw per move index), so theorems hold for every behavior of both. -/

structure MoveEval where
  move : String
  eval : ℤ
  deriving Repr, DecidableEq

structure MoveProb where
  move : String
  probability : ℚ
  deriving Repr, DecidableEq

/-- Embeds `temperature = max(0.5, (elo - 800) / 1200)`
(`MaiaService._evals_to_probabilities`, line 145). -/
def temperature (elo : ℤ) : ℚ := max (1 / 2) (((elo : ℚ) - 800) / 1200)

/-- Embeds `noise_factor = max(0, (1500 - elo) / 1500) * 0.1` (line 162). -/
def noise_factor (elo : ℤ) : ℚ := max 0 ((1500 - (elo : ℚ)) / 1500) * (1 / 10)

/-- Embeds `prob = max(0.01, min(0.99, base_prob + noise))` (line 170). -/
def clampProb (x : ℚ) : ℚ := max (1 / 100) (min (99 / 100) x)

/-- Embeds `MaiaService._evals_to_probabilities` (lines 133-176) up to and
including the per-move clamping, before the final renormalization. -/
def clamped_probs (pexp : ℚ → ℚ) (noise : ℕ → ℚ)
    (move_evals : List MoveEval) (elo : ℤ) : List MoveProb :=
  match move_evals with
  | [] => []
  | m0 :: rest =>
      let best_eval : ℤ := rest.foldl (fun b m => max b m.eval) m0.eval
      let temp := temperature elo
      let expOf : MoveEval → ℚ := fun m => pexp ((((m.eval : ℚ) - best_eval) / 100) / temp)
      let total : ℚ := ((m0 :: rest).map expOf).sum
      mapWithIdx
        (fun i m =>
          let base_prob : ℚ :=
            if 0 < total then expOf m / total
            else 1 / ((m0 :: rest).length : ℚ)
          { move := m.move, probability := clampProb (base_prob + noise i) })
        0 (m0 :: rest)

/-- Embeds `MaiaService._evals_to_probabilities` (lines 133-183): clamp each
softmax-plus-noise probability to `[0.01, 0.99]`, then renormalize by the sum
of the clamped values. -/
def evals_to_probabilities (pexp : ℚ → ℚ) (noise : ℕ → ℚ)
    (move_evals : List MoveEval) (elo : ℤ) : List MoveProb :=
  match clamped_probs pexp noise move_evals elo with
  | [] => []
  | clamped@(_ :: _) =>
      let total_prob : ℚ := (clamped.map (·.probability)).sum
      clamped.map (fun m => { m with probability := m.probability / total_prob })

/-- Embeds the tail of `MaiaService.get_move_probabilities` (lines 44-84):
no legal move yields the empty list; otherwise evaluate the first ten legal
moves, convert to probabilities, sort by probability descending and keep the
top five.  (The surrounding dict also carries `elo_model`, immaterial here.) -/
def get_move_probabilities (pexp : ℚ → ℚ) (noise : ℕ → ℚ)
    (legal_move_evals : List MoveEval) (elo : ℤ) : List MoveProb :=
  match legal_move_evals with
  | [] => []
  | _ :: _ =>
      (sortDescBy (·.probability)
        (evals_to_probabilities pexp noise (legal_move_evals.take 10) elo)).take 5

/-- Embeds `MaiaService._elo_to_depth` (lines 122-131). -/
def elo_to_depth (elo : ℤ) : ℕ :=
  if elo < 1200 then 8 else if elo < 1500 then 12 else if elo < 1800 then 16 else 20

/-! ### `infer_elo_from_move` (lines 86-120)

The four per-anchor distributions come from `get_move_probabilities`, which
depends on the engine and on fresh random noise; the embedding therefore takes
the generated top-5 lists as a function of the anchor rating. -/

def elo_levels : List ℤ := [1100, 1300, 1500, 1900]

/-- Embeds `next((m["probability"] for m in probs["moves"] if m["move"] == move_made), 0.01)`:
probability of the first matching entry, defaulting to `0.01`. -/
def lookup_move_prob (moves : List MoveProb) (move_made : String) : ℚ :=
  ((moves.find? (fun m => m.move = move_made)).map (·.probability)).getD (1 / 100)

/-- Python's `max(items, key=lambda x: x[1])`: the first entry whose value is
maximal (later entries replace the accumulator only when strictly greater). -/
def pyMaxBySnd (x : ℤ × ℚ) (xs : List (ℤ × ℚ)) : ℤ × ℚ :=
  xs.foldl (fun acc y => if acc.2 < y.2 then y else acc) x

structure EloInference where
  most_likely_elo : ℤ
  elo_distribution : List (ℤ × ℚ)
  confidence : ℚ
  deriving Repr, DecidableEq

/-- Embeds `MaiaService.infer_elo_from_move` (lines 86-120).  `get_probs e`
is the `moves` list returned by `get_move_probabilities(fen, e)`. -/
def infer_elo_from_move (get_probs : ℤ → List MoveProb) (move_made : String) : EloInference :=
  let dist : List (ℤ × ℚ) :=
    elo_levels.map (fun e => (e, lookup_move_prob (get_probs e) move_made))
  match dist with
  | [] => { most_likely_elo := 0, elo_distribution := [], confidence := 0 }
  | d0 :: drest =>
      let most_likely := pyMaxBySnd d0 drest
      { most_likely_elo := most_likely.1
        elo_distribution := d0 :: drest
        confidence := most_likely.2 }

/-! ## AgentToolkit (`agent_tools.py`)

The analysis tools delegate to the coordinator / opening service, whose
results reach the loop only as `str(result)`; they are abstracted as an
`AnalysisOracle` returning either the rendered result string or the message of
a raised exception.  The annotation / question tools mutate the toolkit's
per-run buffers, modeled as explicit `ToolkitState` passing.  (The random
`uuid` and wall-clock ids are external and omitted from the records.) -/

structure Annot where
  type : String
  color : String
  from_square : Option String
  to_square : Option String
  square : Option String
  deriving Repr, DecidableEq

structure LessonQuestion where
  type : String
  question : String
  correct_answer : String
  options : Option (List String)
  explanation : Option String
  deriving Repr, DecidableEq

structure ToolkitState where
  current_annots : List Annot
  current_question : Option LessonQuestion
  deriving Repr, DecidableEq

def ToolkitState.initial : ToolkitState := { current_annots := [], current_question := none }

/-- Embeds `AgentToolkit.create_board_annotation` (lines 86-124): validate the
per-variant required squares (Python falsiness: `None` or `""`), then append
the marker to the per-run buffer. -/
def create_board_annot (tk : ToolkitState) (annot_type color : String)
    (from_square to_square square : Option String) : Except String (Annot × ToolkitState) :=
  if annot_type = "arrow" then
    if !truthyStr from_square || !truthyStr to_square then
      .error "Arrows require both from_square and to_square"
    else
      let a : Annot :=
        { type := annot_type, color := color, from_square := from_square
          to_square := to_square, square := none }
      .ok (a, { tk with current_annots := tk.current_annots ++ [a] })
  else
    if !truthyStr square then
      .error (annot_type ++ " requires a square parameter")
    else
      let a : Annot :=
        { type := annot_type, color := color, from_square := none
          to_square := none, square := square }
      .ok (a, { tk with current_annots := tk.current_annots ++ [a] })

/-- Embeds `AgentToolkit.create_question` (lines 126-162): multiple-choice
questions need at least two options (`not options or len(options) < 2`); a
truthy explanation is attached; the question replaces the current one. -/
def create_question (tk : ToolkitState) (question_type question_text correct_answer : String)
    (options : Option (List String)) (explanation : Option String) :
    Except String (LessonQuestion × ToolkitState) :=
  let base : LessonQuestion :=
    { type := question_type, question := question_text
      correct_answer := correct_answer, options := none, explanation := none }
  let finish : LessonQuestion → Except String (LessonQuestion × ToolkitState) := fun q =>
    let q := if truthyStr explanation then { q with explanation := explanation } else q
    .ok (q, { tk with current_question := some q })
  if question_type = "multiple_choice" then
    match options with
    | none => .error "Multiple choice questions require at least 2 options"
    | some opts =>
        if opts.length < 2 then .error "Multiple choice questions require at least 2 options"
        else finish { base with options := some opts }
  else finish base

/-- The keyword arguments of one tool call, each key optional; a missing
required key raises `KeyError` on `tool_input[key]`. -/
structure ToolInput where
  fen : Option String := none
  user_elo : Option ℤ := none
  fen_before : Option String := none
  move : Option String := none
  pgn : Option String := none
  annot_type : Option String := none
  color : Option String := none
  from_square : Option String := none
  to_square : Option String := none
  square : Option String := none
  question_type : Option String := none
  question_text : Option String := none
  correct_answer : Option String := none
  options : Option (List String) := none
  explanation : Option String := none

/-- External analysis collaborators behind `execute_tool`, each returning the
rendered (`str(...)`) result or the message of a raised exception; `show_annot`
and `show_question` are Python's `str()` on the created dicts. -/
structure AnalysisOracle where
  analyze_position_full : String → ℤ → Except String String
  analyze_user_move : String → String → ℤ → Except String String
  get_opening_classification : String → Except String String
  position_type : String → Except String String
  show_annot : Annot → String
  show_question : LessonQuestion → String

/-- Python's `tool_input[key]`: the value, or a `KeyError` when absent. -/
def reqKey (o : Option α) (key : String) : Except String α :=
  match o with
  | some v => .ok v
  | none => .error ("KeyError: " ++ key)

/-- Embeds `AgentToolkit.execute_tool` (lines 177-220): string dispatch on the
tool name, `ValueError` on an unknown name. -/
def execute_tool (oracle : AnalysisOracle) (tk : ToolkitState)
    (tool_name : String) (tool_input : ToolInput) : Except String (String × ToolkitState) :=
  if tool_name = "analyze_position" then do
    let fen ← reqKey tool_input.fen "fen"
    let elo ← reqKey tool_input.user_elo "user_elo"
    let r ← oracle.analyze_position_full fen elo
    .ok (r, tk)
  else if tool_name = "analyze_move" then do
    let fen_before ← reqKey tool_input.fen_before "fen_before"
    let move ← reqKey tool_input.move "move"
    let elo ← reqKey tool_input.user_elo "user_elo"
    let r ← oracle.analyze_user_move fen_before move elo
    .ok (r, tk)
  else if tool_name = "classify_opening" then do
    let pgn ← reqKey tool_input.pgn "pgn"
    let r ← oracle.get_opening_classification pgn
    .ok (r, tk)
  else if tool_name = "get_position_type" then do
    let fen ← reqKey tool_input.fen "fen"
    let r ← oracle.position_type fen
    .ok (r, tk)
  else if tool_name = "create_board_annotation" then do
    let t ← reqKey tool_input.annot_type "annotation_type"
    let c ← reqKey tool_input.color "color"
    match create_board_annot tk t c tool_input.from_square tool_input.to_square
        tool_input.square with
    | .ok (a, tk') => .ok (oracle.show_annot a, tk')
    | .error e => .error e
  else if tool_name = "create_question" then do
    let qt ← reqKey tool_input.question_type "question_type"
    let qtext ← reqKey tool_input.question_text "question_text"
    let ca ← reqKey tool_input.correct_answer "correct_answer"
    match create_question tk qt qtext ca tool_input.options tool_input.explanation with
    | .ok (q, tk') => .ok (oracle.show_question q, tk')
    | .error e => .error e
  else .error ("Unknown tool: " ++ tool_name)

/-! ## ChessCoachAgent (`coach_agent.py`)

The Anthropic service is an external collaborator: the loop makes one
`messages.create` call per iteration, so its behavior is abstracted as a
function from the call index (0, 1, ...) to the returned response.  The system
prompt string is consumed only by that external call. -/

inductive StopReason where
  | end_turn
  | tool_use
  | other
  deriving Repr, DecidableEq

inductive Block where
  | text (s : String)
  | tool_use (id : String) (name : String) (input : ToolInput)

structure Response where
  stop_reason : StopReason
  content : List Block

structure ToolResult where
  tool_use_id : String
  content : String
  is_error : Bool

inductive Msg where
  | user (s : String)
  | assistant (content : List Block)
  | tool_results (rs : List ToolResult)

structure PositionEntry where
  fen : String
  move_number : ℕ
  move : Option String
  deriving Repr, DecidableEq

structure GameData where
  pgn : String
  positions : List PositionEntry
  moves : List String
  result : String
  white : String
  black : String
  deriving Repr, DecidableEq

/-- A finalized lesson comment (`ChessCoachAgent._finalize_comment`,
lines 259-270; the wall-clock `id`/`timestamp` fields are external). -/
structure LessonComment where
  text : String
  position_fen : String
  annots : List Annot
  question : Option LessonQuestion
  deriving Repr, DecidableEq

def finalize_comment (tk : ToolkitState) (text : String) (position_fen : String) :
    LessonComment :=
  { text := pyStrip text, position_fen := position_fen
    annots := tk.current_annots, question := tk.current_question }

/-- `game_data['positions'][i]['fen'] if i < len(...) else positions[-1]['fen']`
(lines 222-224). -/
def posAt (gd : GameData) (i : ℕ) : String :=
  if h : i < gd.positions.length then (gd.positions.get ⟨i, h⟩).fen
  else ((gd.positions.getLast?).map (·.fen)).getD ""

/-- A text block marks a step boundary when it contains `---` or `### `
(line 217). -/
def isBoundaryText (t : String) : Bool :=
  strContains t "---" || strContains t "### "

structure LoopState where
  messages : List Msg
  lesson_comments : List LessonComment
  current_comment_text : String
  toolkit : ToolkitState

/-- Embeds the per-block body of the `tool_use` branch (lines 211-248): text
blocks accumulate commentary and may seal a step at a boundary marker; tool
blocks are dispatched, any exception being converted into an error-tagged
tool result (`except` at lines 242-248). -/
def process_block (gd : GameData) (oracle : AnalysisOracle) :
    LoopState × List ToolResult → Block → LoopState × List ToolResult
  | (st, trs), .text t =>
      let newText := st.current_comment_text ++ t
      if isBoundaryText t then
        let st' :=
          if pyStrip newText ≠ "" then
            { st with
              lesson_comments := st.lesson_comments ++
                [finalize_comment st.toolkit newText (posAt gd st.lesson_comments.length)]
              toolkit := ToolkitState.initial
              current_comment_text := "" }
          else
            { st with toolkit := ToolkitState.initial, current_comment_text := "" }
        (st', trs)
      else ({ st with current_comment_text := newText }, trs)
  | (st, trs), .tool_use id name input =>
      match execute_tool oracle st.toolkit name input with
      | .ok (r, tk') =>
          ({ st with toolkit := tk' },
           trs ++ [{ tool_use_id := id, content := r, is_error := false }])
      | .error e =>
          (st, trs ++ [{ tool_use_id := id, content := "Error: " ++ e, is_error := true }])

inductive IterResult where
  | done (comments : List LessonComment)
  | next (st : LoopState)

/-- Embeds one iteration of `ChessCoachAgent._agentic_loop` (lines 181-255)
after the service call: record the assistant response, then branch on the
stop reason.  On `end_turn` any non-empty accumulated commentary is sealed
against `positions[0]` and the loop returns; on `tool_use` the blocks are
processed and any tool results are appended as one user message. -/
def loop_iteration (gd : GameData) (oracle : AnalysisOracle)
    (st : LoopState) (response : Response) : IterResult :=
  let st := { st with messages := st.messages ++ [.assistant response.content] }
  match response.stop_reason with
  | .end_turn =>
      .done (st.lesson_comments ++
        (if pyStrip st.current_comment_text ≠ "" then
          [finalize_comment st.toolkit st.current_comment_text
            (((gd.positions.head?).map (·.fen)).getD "")]
         else []))
  | .tool_use =>
      let (st', trs) := response.content.foldl (process_block gd oracle) (st, [])
      .next (if trs.isEmpty then st'
        else { st' with messages := st'.messages ++ [.tool_results trs] })
  | .other => .next st

/-- `max_iterations = 30` (line 179). -/
def max_iterations : ℕ := 30

/-- The loop with its remaining iteration budget (`for iteration in range(30)`),
also counting the service calls made.  Exhausting the budget returns the
accumulated `lesson_comments`. -/
def agentic_loop_aux (gd : GameData) (oracle : AnalysisOracle) (service : ℕ → Response) :
    ℕ → ℕ → LoopState → List LessonComment × ℕ
  | 0, calls, st => (st.lesson_comments, calls)
  | fuel + 1, calls, st =>
      match loop_iteration gd oracle st (service calls) with
      | .done cs => (cs, calls + 1)
      | .next st' => agentic_loop_aux gd oracle service fuel (calls + 1) st'

def initial_state (user_prompt : String) : LoopState :=
  { messages := [.user user_prompt], lesson_comments := []
    current_comment_text := "", toolkit := ToolkitState.initial }

/-- Embeds `ChessCoachAgent._agentic_loop` (lines 165-257); returns the lesson
comments together with the number of service calls performed. -/
def agentic_loop (gd : GameData) (oracle : AnalysisOracle) (service : ℕ → Response)
    (user_prompt : String) : List LessonComment × ℕ :=
  agentic_loop_aux gd oracle service max_iterations 0 (initial_state user_prompt)

/-! ### PGN parsing and `generate_lesson` -/

/-- Result of the external `chess.pgn` replay: initial FEN, then per mainline
move its UCI form and the FEN after it, plus the headers used. -/
structure ParsedGame where
  initial_fen : String
  steps : List (String × String)
  result : String
  white : String
  black : String

/-- Embeds the body of `ChessCoachAgent._parse_pgn` after a successful
`read_game` (lines 77-106). -/
def build_game_data (g : ParsedGame) (pgn : String) : GameData :=
  { pgn := pgn
    positions :=
      { fen := g.initial_fen, move_number := 0, move := none } ::
        mapWithIdx (fun i s => { fen := s.2, move_number := i, move := some s.1 }) 1 g.steps
    moves := g.steps.map (·.1)
    result := g.result
    white := g.white
    black := g.black }

/-- Embeds `ChessCoachAgent._parse_pgn` (lines 69-106): `chess.pgn.read_game`
is the external parser; a PGN that does not parse raises
`ValueError("Invalid PGN format")`. -/
def parse_pgn (read_game : String → Option ParsedGame) (pgn : String) :
    Except String GameData :=
  match read_game pgn with
  | none => .error "Invalid PGN format"
  | some g => .ok (build_game_data g pgn)

/-- Embeds `_build_user_prompt` (lines 141-163); the prompt literal is
abridged — its exact wording is consumed only by the external service. -/
def build_user_prompt (gd : GameData) (user_elo : ℤ) : String :=
  "Please analyze this chess game and create a lesson. PGN: " ++ gd.pgn
    ++ " Student ELO: " ++ toString user_elo

structure LessonResult where
  comments : List LessonComment
  total_steps : ℕ
  focus_areas : List String

/-- Embeds `ChessCoachAgent.generate_lesson` (lines 29-67): parse the PGN
(propagating its error), run the agentic loop, wrap the comments.  Also
returns the number of service calls made. -/
def generate_lesson (read_game : String → Option ParsedGame) (oracle : AnalysisOracle)
    (service : ℕ → Response) (pgn : String) (user_elo : ℤ) (focus_areas : List String) :
    Except String (LessonResult × ℕ) :=
  match parse_pgn read_game pgn with
  | .error e => .error e
  | .ok gd =>
      let r := agentic_loop gd oracle service (build_user_prompt gd user_elo)
      .ok ({ comments := r.1, total_steps := r.1.length, focus_areas := focus_areas }, r.2)

/-- State of the lesson row after `generate_lesson_background`
(`api/routes/lessons.py`, lines 26-80): on success the comments are saved and
the status is `completed`; on any exception the status is `failed` with the
captured message and no comments are saved. -/
structure LessonRecord where
  status : String
  error_message : Option String
  saved_comments : List LessonComment

def generate_lesson_background (read_game : String → Option ParsedGame)
    (oracle : AnalysisOracle) (service : ℕ → Response)
    (pgn : String) (user_elo : ℤ) (focus_areas : List String) : LessonRecord :=
  match generate_lesson read_game oracle service pgn user_elo focus_areas with
  | .ok (r, _) =>
      { status := "completed", error_message := none, saved_comments := r.comments }
  | .error e =>
      { status := "failed", error_message := some e, saved_comments := [] }

/-! ## Constructor wiring (`agent_tools.py` lines 21-25)

`AgentToolkit.__init__` calls `MaiaService(self.stockfish)` and
`AnalysisCoordinator(self.stockfish, self.maia)`, but `MaiaService.__init__`
and `AnalysisCoordinator.__init__` take no parameters beyond `self`
(`maia_service.py` lines 16-18, `analysis_coordinator.py` lines 14-16).
Python's positional argument binding is embedded: a call whose argument count
differs from the parameter count raises `TypeError` before the body runs.
`StockfishService()` itself raises `FileNotFoundError` first when no engine
binary is discoverable (`stockfish_service.py` lines 11-25). -/

inductive PyError where
  | type_error
  | file_not_found
  deriving Repr, DecidableEq

/-- Bind `n_args` positional arguments to a parameter list of size `arity`
(no defaults): Python raises `TypeError` on a mismatch. -/
def py_call_init (arity n_args : ℕ) : Except PyError Unit :=
  if n_args = arity then .ok () else .error .type_error

/-- `MaiaService.__init__(self)`: zero parameters beyond `self`. -/
def maia_service_init_arity : ℕ := 0

/-- `AnalysisCoordinator.__init__(self)`: zero parameters beyond `self`. -/
def analysis_coordinator_init_arity : ℕ := 0

/-- `OpeningService.__init__(self)`: zero parameters beyond `self`. -/
def opening_service_init_arity : ℕ := 0

/-- `StockfishService.__init__(self, engine_path=None)` called with no
argument binds fine; the body then searches the candidate paths and raises
`FileNotFoundError` when no engine binary exists. -/
def stockfish_service_init (engine_found : Bool) : Except PyError Unit :=
  if engine_found then .ok () else .error .file_not_found

/-- Embeds `AgentToolkit.__init__` (lines 21-25): the four constructor calls
in order, each propagating its exception. -/
def agent_toolkit_init (engine_found : Bool) : Except PyError Unit := do
  stockfish_service_init engine_found
  py_call_init maia_service_init_arity 1
  py_call_init analysis_coordinator_init_arity 2
  py_call_init opening_service_init_arity 0

/-- Embeds `ChessCoachAgent.__init__` (coach_agent.py lines 23-27): the
Anthropic client construction is external; then `AgentToolkit()`. -/
def chess_coach_agent_init (engine_found : Bool) : Except PyError Unit :=
  agent_toolkit_init engine_found

/-! ## Helper lemmas -/

theorem classify_move_iff (c : ℤ) :
    (classify_move c = "excellent" ↔ c ≤ 15) ∧
    (classify_move c = "good" ↔ 15 < c ∧ c ≤ 50) ∧
    (classify_move c = "inaccuracy" ↔ 50 < c ∧ c ≤ 100) ∧
    (classify_move c = "mistake" ↔ 100 < c ∧ c ≤ 300) ∧
    (classify_move c = "blunder" ↔ 300 < c) := by
  unfold classify_move
  split_ifs with h1 h2 h3 h4 <;>
    refine ⟨?_, ?_, ?_, ?_, ?_⟩ <;> simp <;> omega

/-! ## Claim theorems -/

/-- Claim C2: for every position FEN, UCI move and depth (and every engine
behavior), `analyze_move` computes
`centipawns_lost = max(0, best_eval - eval_after)` where `eval_after` is the
evaluation of the resulting position negated to the mover's perspective and
`best_eval` the evaluation of the pre-move position, and classifies the move
excellent iff `cpl ≤ 15`, good iff `15 < cpl ≤ 50`, inaccuracy iff
`50 < cpl ≤ 100`, mistake iff `100 < cpl ≤ 300`, blunder otherwise. -/
theorem analyze_move_centipawns_and_classification
    (eng : EngineOracle) (fen move : String) (depth : ℕ) :
    (analyze_move eng fen move depth).eval_after
        = -((eng.score (eng.push_move fen move) depth).getD 0) ∧
    (analyze_move eng fen move depth).best_eval = (eng.score fen depth).getD 0 ∧
    (analyze_move eng fen move depth).centipawns_lost
        = max 0 ((analyze_move eng fen move depth).best_eval
            - (analyze_move eng fen move depth).eval_after) ∧
    ((analyze_move eng fen move depth).classification = "excellent"
        ↔ (analyze_move eng fen move depth).centipawns_lost ≤ 15) ∧
    ((analyze_move eng fen move depth).classification = "good"
        ↔ 15 < (analyze_move eng fen move depth).centipawns_lost
            ∧ (analyze_move eng fen move depth).centipawns_lost ≤ 50) ∧
    ((analyze_move eng fen move depth).classification = "inaccuracy"
        ↔ 50 < (analyze_move eng fen move depth).centipawns_lost
            ∧ (analyze_move eng fen move depth).centipawns_lost ≤ 100) ∧
    ((analyze_move eng fen move depth).classification = "mistake"
        ↔ 100 < (analyze_move eng fen move depth).centipawns_lost
            ∧ (analyze_move eng fen move depth).centipawns_lost ≤ 300) ∧
    ((analyze_move eng fen move depth).classification = "blunder"
        ↔ 300 < (analyze_move eng fen move depth).centipawns_lost) := by
  have h := classify_move_iff
    (max 0 (((eng.score fen depth).getD 0) - -((eng.score (eng.push_move fen move) depth).getD 0)))
  exact ⟨rfl, rfl, rfl, h.1, h.2.1, h.2.2.1, h.2.2.2.1, h.2.2.2.2⟩

/-- Claim C3 (code bug): the code computes `max(0.5, (elo - 800) / 1200)` with
no upper clamp, so at rating 2800 (the documented top of the tool-catalog
range) the temperature is `5/3`, exceeding the cap `1.5` asserted by the
claim and by the code's own `# 0.5 to 1.5` comment.  Below 2600 the claimed
formula and the code agree. -/
theorem temperature_exceeds_cap_at_2800 :
    temperature 2800 = 5 / 3 ∧ ¬(temperature 2800 ≤ 3 / 2) := by
  unfold temperature
  norm_num [max_def]

/-- Claim C5 counterexample: the FEN holding only the two kings but with
fullmove number 1 is classified `opening`, not `endgame`, because
`get_position_type` tests `fullmove_number <= 10` before the piece count. -/
theorem get_position_type_two_kings_cex :
    twoKingsOnly "4k3/8/8/8/8/8/8/4K3 w - - 0 1" = true ∧
    get_position_type "4k3/8/8/8/8/8/8/4K3 w - - 0 1" = some "opening" ∧
    (some "opening" : Option String) ≠ some "endgame" := by
  refine ⟨by decide, by decide, by decide⟩

/-- Claim C5 (amended): a FEN whose only pieces are the two kings is
classified `endgame` provided its fullmove number exceeds 10 (at fullmove 10
or earlier the phase rule returns `opening` regardless of material). -/
theorem get_position_type_two_kings_endgame (fen : String) (n : ℕ)
    (hk : twoKingsOnly fen = true) (hf : fenFullmove fen = some n) (hn : 10 < n) :
    get_position_type fen = some "endgame" := by
  have hc : countPieces (fenPlacement fen) ≤ 10 := by
    unfold twoKingsOnly at hk
    simp only [Bool.and_eq_true, decide_eq_true_eq] at hk
    unfold countPieces
    rw [List.countP_eq_length_filter, hk.1.1]
    omega
  unfold get_position_type
  rw [hf, Option.map_some', if_neg (by omega), if_pos hc]

/-- Witness for the amended claim C5 at the concrete FEN
`4k3/8/8/8/8/8/8/4K3 w - - 0 42`. -/
theorem get_position_type_two_kings_endgame_witness :
    twoKingsOnly "4k3/8/8/8/8/8/8/4K3 w - - 0 42" = true ∧
    fenFullmove "4k3/8/8/8/8/8/8/4K3 w - - 0 42" = some 42 ∧
    10 < 42 ∧
    get_position_type "4k3/8/8/8/8/8/8/4K3 w - - 0 42" = some "endgame" :=
  ⟨by decide, by decide, by decide,
    get_position_type_two_kings_endgame "4k3/8/8/8/8/8/8/4K3 w - - 0 42" 42
      (by decide) (by decide) (by decide)⟩

/-- Claim C9: constructing an `AgentToolkit` (and hence a `ChessCoachAgent`)
raises `TypeError`, because `MaiaService(self.stockfish)` passes one argument
to a zero-parameter `__init__`; construction never succeeds for any
environment (when no engine binary is discoverable, `FileNotFoundError`
preempts the `TypeError`). -/
theorem agent_toolkit_init_raises_type_error :
    agent_toolkit_init true = .error .type_error ∧
    chess_coach_agent_init true = .error .type_error ∧
    (∀ b : Bool, agent_toolkit_init b ≠ .ok ()) ∧
    (∀ b : Bool, chess_coach_agent_init b ≠ .ok ()) := by
  refine ⟨rfl, rfl, ?_, ?_⟩ <;>
    exact fun b => by cases b <;> exact fun h => Except.noConfusion h

theorem pyMaxBySnd_mem (x : ℤ × ℚ) (xs : List (ℤ × ℚ)) : pyMaxBySnd x xs ∈ x :: xs := by
  induction xs generalizing x with
  | nil => simp [pyMaxBySnd]
  | cons y ys ih =>
      have h := ih (if x.2 < y.2 then y else x)
      unfold pyMaxBySnd at h ⊢
      simp only [List.foldl_cons]
      rcases List.mem_cons.mp h with h1 | h1
      · rw [h1]
        split <;> simp
      · simp [h1]

theorem pyMaxBySnd_ge (x : ℤ × ℚ) (xs : List (ℤ × ℚ)) :
    ∀ y ∈ x :: xs, y.2 ≤ (pyMaxBySnd x xs).2 := by
  induction xs generalizing x with
  | nil => simp [pyMaxBySnd]
  | cons y ys ih =>
      intro z hz
      have h := ih (if x.2 < y.2 then y else x)
      have hx : x.2 ≤ (pyMaxBySnd (if x.2 < y.2 then y else x) ys).2 := by
        refine le_trans ?_ (h _ (List.mem_cons_self _ _))
        split <;> linarith
      have hy : y.2 ≤ (pyMaxBySnd (if x.2 < y.2 then y else x) ys).2 := by
        refine le_trans ?_ (h _ (List.mem_cons_self _ _))
        split <;> linarith
      unfold pyMaxBySnd
      simp only [List.foldl_cons]
      rcases List.mem_cons.mp hz with h1 | h1
      · subst h1; exact hx
      · rcases List.mem_cons.mp h1 with h2 | h2
        · subst h2; exact hy
        · exact h z (List.mem_cons_of_mem _ h2)

/-- Claim C4: for every position and observed move (i.e. for every family of
generated top-5 distributions), `infer_elo_from_move` evaluates the move's
probability at exactly the anchors 1100, 1300, 1500, 1900 with default 0.01
when absent, returns the full anchor-to-probability map, a maximal entry as
`(most_likely_elo, confidence)`, and the returned rating is one of the four
anchors. -/
theorem infer_elo_from_move_spec (get_probs : ℤ → List MoveProb) (move_made : String) :
    (infer_elo_from_move get_probs move_made).elo_distribution
        = elo_levels.map (fun e => (e, lookup_move_prob (get_probs e) move_made)) ∧
    (infer_elo_from_move get_probs move_made).most_likely_elo ∈ elo_levels ∧
    (infer_elo_from_move get_probs move_made).confidence
        = lookup_move_prob (get_probs (infer_elo_from_move get_probs move_made).most_likely_elo)
            move_made ∧
    ((infer_elo_from_move get_probs move_made).most_likely_elo,
        (infer_elo_from_move get_probs move_made).confidence)
      ∈ (infer_elo_from_move get_probs move_made).elo_distribution ∧
    (∀ p ∈ (infer_elo_from_move get_probs move_made).elo_distribution,
        p.2 ≤ (infer_elo_from_move get_probs move_made).confidence) := by
  have hml := pyMaxBySnd_mem (1100, lookup_move_prob (get_probs 1100) move_made)
    [(1300, lookup_move_prob (get_probs 1300) move_made),
     (1500, lookup_move_prob (get_probs 1500) move_made),
     (1900, lookup_move_prob (get_probs 1900) move_made)]
  have hge := pyMaxBySnd_ge (1100, lookup_move_prob (get_probs 1100) move_made)
    [(1300, lookup_move_prob (get_probs 1300) move_made),
     (1500, lookup_move_prob (get_probs 1500) move_made),
     (1900, lookup_move_prob (get_probs 1900) move_made)]
  simp only [List.mem_cons, List.mem_singleton, List.not_mem_nil, or_false] at hml
  simp only [infer_elo_from_move, elo_levels, List.map]
  refine ⟨by trivial, ?_, ?_, ?_, ?_⟩
  · rcases hml with h | h | h | h <;> simp [h]
  · rcases hml with h | h | h | h <;> rw [h]
  · rcases hml with h | h | h | h <;> rw [h] <;> simp
  · intro p hp
    simp only [List.mem_cons, List.not_mem_nil, or_false] at hp
    rcases hp with h | h | h | h <;> subst h <;> exact hge _ (by simp)

theorem mapWithIdx_length (f : ℕ → α → β) (i : ℕ) (l : List α) :
    (mapWithIdx f i l).length = l.length := by
  induction l generalizing i with
  | nil => rfl
  | cons x xs ih => simp [mapWithIdx, ih]

theorem mem_mapWithIdx (f : ℕ → α → β) (i : ℕ) (l : List α) :
    ∀ y ∈ mapWithIdx f i l, ∃ j x, x ∈ l ∧ y = f j x := by
  induction l generalizing i with
  | nil => intro y hy; cases hy
  | cons x xs ih =>
      intro y hy
      rcases List.mem_cons.mp hy with h | h
      · exact ⟨i, x, List.mem_cons_self _ _, h⟩
      · obtain ⟨j, z, hz, hyz⟩ := ih (i + 1) y h
        exact ⟨j, z, List.mem_cons_of_mem _ hz, hyz⟩

theorem insertDescBy_perm (key : α → ℚ) (x : α) (l : List α) :
    (insertDescBy key x l).Perm (x :: l) := by
  induction l with
  | nil => exact List.Perm.refl _
  | cons y ys ih =>
      unfold insertDescBy
      split
      · exact (ih.cons y).trans (List.Perm.swap x y ys)
      · exact List.Perm.refl _

theorem sortDescBy_perm (key : α → ℚ) (l : List α) : (sortDescBy key l).Perm l := by
  induction l with
  | nil => exact List.Perm.refl _
  | cons x xs ih => exact (insertDescBy_perm key x _).trans (ih.cons x)

theorem insertDescBy_pairwise (key : α → ℚ) (x : α) (l : List α)
    (h : l.Pairwise (fun a b => key b ≤ key a)) :
    (insertDescBy key x l).Pairwise (fun a b => key b ≤ key a) := by
  induction l with
  | nil => simp [insertDescBy]
  | cons y ys ih =>
      rcases List.pairwise_cons.mp h with ⟨hy, hys⟩
      unfold insertDescBy
      split
      · rename_i hlt
        refine List.pairwise_cons.mpr ⟨?_, ih hys⟩
        intro z hz
        rcases List.mem_cons.mp ((insertDescBy_perm key x ys).mem_iff.mp hz) with h1 | h1
        · subst h1; linarith
        · exact hy z h1
      · rename_i hnlt
        refine List.pairwise_cons.mpr ⟨?_, h⟩
        intro z hz
        rcases List.mem_cons.mp hz with h1 | h1
        · subst h1; linarith
        · exact le_trans (hy z h1) (by linarith)

theorem sortDescBy_pairwise (key : α → ℚ) (l : List α) :
    (sortDescBy key l).Pairwise (fun a b => key b ≤ key a) := by
  induction l with
  | nil => simp [sortDescBy]
  | cons x xs ih => exact insertDescBy_pairwise key x _ ih

theorem sum_pos_of_le_mem (l : List ℚ) (hne : l ≠ []) (h : ∀ x ∈ l, 1 / 100 ≤ x) :
    0 < l.sum := by
  cases l with
  | nil => cases hne rfl
  | cons x xs =>
      have hx : (1 : ℚ) / 100 ≤ x := h x (List.mem_cons_self _ _)
      have hxs : 0 ≤ xs.sum :=
        List.sum_nonneg (fun y hy => le_trans (by norm_num) (h y (List.mem_cons_of_mem _ hy)))
      rw [List.sum_cons]
      linarith

theorem sum_map_prob_div (l : List MoveProb) (T : ℚ) :
    ((l.map (fun m => { m with probability := m.probability / T })).map
        (MoveProb.probability)).sum
      = (l.map (MoveProb.probability)).sum / T := by
  induction l with
  | nil => simp
  | cons x xs ih => simp only [List.map_cons, List.sum_cons, ih, add_div]

theorem clampProb_bounds (x : ℚ) : 1 / 100 ≤ clampProb x ∧ clampProb x ≤ 99 / 100 := by
  unfold clampProb
  exact ⟨le_max_left _ _, max_le (by norm_num) (min_le_left _ _)⟩

theorem clamped_probs_length (pexp : ℚ → ℚ) (noise : ℕ → ℚ)
    (move_evals : List MoveEval) (elo : ℤ) :
    (clamped_probs pexp noise move_evals elo).length = move_evals.length := by
  cases move_evals with
  | nil => rfl
  | cons m0 rest => simp [clamped_probs, mapWithIdx_length]

theorem clamped_probs_bounds (pexp : ℚ → ℚ) (noise : ℕ → ℚ)
    (move_evals : List MoveEval) (elo : ℤ) :
    ∀ p ∈ clamped_probs pexp noise move_evals elo,
      1 / 100 ≤ p.probability ∧ p.probability ≤ 99 / 100 := by
  intro p hp
  cases move_evals with
  | nil => cases hp
  | cons m0 rest =>
      simp only [clamped_probs] at hp
      obtain ⟨j, x, hx, rfl⟩ := mem_mapWithIdx _ _ _ p hp
      exact clampProb_bounds _

theorem evals_to_probabilities_facts (pexp : ℚ → ℚ) (noise : ℕ → ℚ)
    (move_evals : List MoveEval) (elo : ℤ) (h : move_evals ≠ []) :
    (evals_to_probabilities pexp noise move_evals elo).length = move_evals.length ∧
    (∀ p ∈ evals_to_probabilities pexp noise move_evals elo,
        0 < p.probability ∧ p.probability ≤ 1) ∧
    ((evals_to_probabilities pexp noise move_evals elo).map (MoveProb.probability)).sum = 1 := by
  have hlen := clamped_probs_length pexp noise move_evals elo
  have hbd := clamped_probs_bounds pexp noise move_evals elo
  cases hcl : clamped_probs pexp noise move_evals elo with
  | nil =>
      exfalso
      rw [hcl] at hlen
      cases move_evals with
      | nil => exact h rfl
      | cons a as => simp at hlen
  | cons c cs =>
      rw [hcl] at hlen hbd
      unfold evals_to_probabilities
      rw [hcl]
      have hbdT : ∀ x ∈ (c :: cs).map (MoveProb.probability), (1 : ℚ) / 100 ≤ x := by
        intro x hx
        obtain ⟨m, hm, rfl⟩ := List.mem_map.mp hx
        exact (hbd m hm).1
      have hT : 0 < ((c :: cs).map (MoveProb.probability)).sum :=
        sum_pos_of_le_mem _ (by simp) hbdT
      refine ⟨by simpa using hlen, ?_, ?_⟩
      · intro p hp
        obtain ⟨m, hm, rfl⟩ := List.mem_map.mp hp
        constructor
        · exact div_pos (lt_of_lt_of_le (by norm_num) (hbd m hm).1) hT
        · rw [div_le_one hT]
          exact List.single_le_sum (fun x hx => le_trans (by norm_num) (hbdT x hx)) _
            (List.mem_map_of_mem _ hm)
      · rw [sum_map_prob_div, div_self (ne_of_gt hT)]

/-- Claim C1 (amended): for every generated distribution (any engine
evaluations, any softmax weight function, any noise draws) with at least one
legal move: the list has at most 5 entries ranked by probability descending;
each clamped probability lies in `[0.01, 0.99]` before the final
renormalization; after renormalization each returned probability is positive
and at most 1 (the single-move case renormalizes `0.99` up to exactly `1`);
and whenever at most 5 moves were evaluated the returned probabilities sum to
exactly 1 (with more than 5 evaluated moves the top-5 truncation happens
after renormalization and can make the sum fall arbitrarily short of 0.95,
see the counterexample). -/
theorem get_move_probabilities_invariant (pexp : ℚ → ℚ) (noise : ℕ → ℚ)
    (legal_move_evals : List MoveEval) (elo : ℤ) (h : legal_move_evals ≠ []) :
    (get_move_probabilities pexp noise legal_move_evals elo).length ≤ 5 ∧
    (get_move_probabilities pexp noise legal_move_evals elo).Pairwise
      (fun a b => b.probability ≤ a.probability) ∧
    (∀ p ∈ clamped_probs pexp noise (legal_move_evals.take 10) elo,
        1 / 100 ≤ p.probability ∧ p.probability ≤ 99 / 100) ∧
    (∀ p ∈ get_move_probabilities pexp noise legal_move_evals elo,
        0 < p.probability ∧ p.probability ≤ 1) ∧
    (legal_move_evals.length ≤ 5 →
      ((get_move_probabilities pexp noise legal_move_evals elo).map
          (MoveProb.probability)).sum = 1) := by
  cases legal_move_evals with
  | nil => cases h rfl
  | cons e es =>
  have htake : (e :: es).take 10 ≠ [] := by simp
  have hfacts := evals_to_probabilities_facts pexp noise ((e :: es).take 10) elo htake
  have hgm : get_move_probabilities pexp noise (e :: es) elo
      = (sortDescBy (fun m => m.probability)
          (evals_to_probabilities pexp noise ((e :: es).take 10) elo)).take 5 := rfl
  rw [hgm]
  refine ⟨?_, ?_, clamped_probs_bounds pexp noise _ elo, ?_, ?_⟩
  · exact List.length_take_le _ _
  · exact (sortDescBy_pairwise _ _).sublist (List.take_sublist _ _)
  · intro p hp
    have hp1 : p ∈ sortDescBy (fun m => m.probability)
        (evals_to_probabilities pexp noise ((e :: es).take 10) elo) :=
      List.take_subset _ _ hp
    exact hfacts.2.1 p ((sortDescBy_perm _ _).mem_iff.mp hp1)
  · intro hle
    have h10 : (e :: es).take 10 = e :: es :=
      List.take_of_length_le (le_trans hle (by norm_num))
    have hlen5 : (sortDescBy (fun m => m.probability)
        (evals_to_probabilities pexp noise ((e :: es).take 10) elo)).length ≤ 5 := by
      rw [(sortDescBy_perm _ _).length_eq, hfacts.1, h10]
      exact hle
    rw [List.take_of_length_le hlen5, List.Perm.sum_eq ((sortDescBy_perm _ _).map _),
      hfacts.2.2]

/-- Witness for the amended claim C1: the single legal move `e2e4` with
evaluation 0 at rating 1500, constant softmax weight 1 and zero noise. -/
theorem get_move_probabilities_invariant_witness :
    ([{ move := "e2e4", eval := 0 }] : List MoveEval) ≠ [] ∧
    ((get_move_probabilities (fun _ => 1) (fun _ => 0)
        [{ move := "e2e4", eval := 0 }] 1500).length ≤ 5 ∧
    (get_move_probabilities (fun _ => 1) (fun _ => 0)
        [{ move := "e2e4", eval := 0 }] 1500).Pairwise
      (fun a b => b.probability ≤ a.probability) ∧
    (∀ p ∈ clamped_probs (fun _ => 1) (fun _ => 0)
        (([{ move := "e2e4", eval := 0 }] : List MoveEval).take 10) 1500,
        1 / 100 ≤ p.probability ∧ p.probability ≤ 99 / 100) ∧
    (∀ p ∈ get_move_probabilities (fun _ => 1) (fun _ => 0)
        [{ move := "e2e4", eval := 0 }] 1500,
        0 < p.probability ∧ p.probability ≤ 1) ∧
    (([{ move := "e2e4", eval := 0 }] : List MoveEval).length ≤ 5 →
      ((get_move_probabilities (fun _ => 1) (fun _ => 0)
          [{ move := "e2e4", eval := 0 }] 1500).map (MoveProb.probability)).sum = 1)) :=
  ⟨by simp, get_move_probabilities_invariant (fun _ => 1) (fun _ => 0)
    [{ move := "e2e4", eval := 0 }] 1500 (by simp)⟩

/-- Softmax weight for the C1 counterexample runs.  In both runs every
normalized evaluation handed to `math.exp` is exactly 0 (all moves share the
evaluation 0), so the constant function 1 agrees with the true exponential at
every point at which it is applied. -/
def cex_pexp : ℚ → ℚ := fun _ => 1

/-- Noise draws for the C1 counterexample runs: at rating 1900 the noise
amplitude `max(0, (1500-1900)/1500) * 0.1` is 0, so zero noise is the only
possible draw. -/
def cex_noise : ℕ → ℚ := fun _ => 0

def cex_single : List MoveEval := [{ move := "e2e4", eval := 0 }]

def cex_six : List MoveEval :=
  [{ move := "e2e4", eval := 0 }, { move := "d2d4", eval := 0 },
   { move := "g1f3", eval := 0 }, { move := "c2c4", eval := 0 },
   { move := "b1c3", eval := 0 }, { move := "e2e3", eval := 0 }]

/-- Claim C1 counterexample: with a single legal move (rating 1900, forced
zero noise) the clamped probability `0.99` renormalizes to exactly `1`, which
lies outside the claimed `[0.01, 0.99]`; and with six equally-evaluated legal
moves each gets probability `1/6` after renormalization, so the returned
top-5 probabilities sum to `5/6`, outside the claimed `1.0 ± 0.05`. -/
theorem get_move_probabilities_claim_cex :
    (get_move_probabilities cex_pexp cex_noise cex_single 1900).map
        (MoveProb.probability) = [1] ∧
    ¬((1 : ℚ) ≤ 99 / 100) ∧
    ((get_move_probabilities cex_pexp cex_noise cex_six 1900).map
        (MoveProb.probability)).sum = 5 / 6 ∧
    ¬(1 - 1 / 20 ≤ (5 / 6 : ℚ)) := by
  refine ⟨?_, by norm_num, ?_, by norm_num⟩
  · norm_num [get_move_probabilities, evals_to_probabilities, clamped_probs, cex_pexp,
      cex_noise, cex_single, mapWithIdx, sortDescBy, insertDescBy, clampProb, min_def,
      max_def, List.take, List.sum_cons, List.sum_nil]
  · norm_num [get_move_probabilities, evals_to_probabilities, clamped_probs, cex_pexp,
      cex_noise, cex_six, mapWithIdx, sortDescBy, insertDescBy, clampProb, min_def,
      max_def, List.take, List.sum_cons, List.sum_nil]

theorem loop_iteration_end_turn (gd : GameData) (oracle : AnalysisOracle)
    (st : LoopState) (c : List Block) :
    loop_iteration gd oracle st { stop_reason := .end_turn, content := c }
      = .done (st.lesson_comments ++
          (if pyStrip st.current_comment_text ≠ "" then
            [finalize_comment st.toolkit st.current_comment_text
              (((gd.positions.head?).map (·.fen)).getD "")]
          else [])) := rfl

theorem agentic_loop_aux_calls_le (gd : GameData) (oracle : AnalysisOracle)
    (service : ℕ → Response) :
    ∀ (fuel calls : ℕ) (st : LoopState),
      (agentic_loop_aux gd oracle service fuel calls st).2 ≤ calls + fuel := by
  intro fuel
  induction fuel with
  | zero => intro calls st; simp [agentic_loop_aux]
  | succ n ih =>
      intro calls st
      unfold agentic_loop_aux
      cases loop_iteration gd oracle st (service calls) with
      | done cs => simp
      | next st' =>
          have h := ih (calls + 1) st'
          simp only []
          omega

theorem agentic_loop_aux_calls_eq (gd : GameData) (oracle : AnalysisOracle)
    (service : ℕ → Response)
    (hs : ∀ n, (service n).stop_reason ≠ StopReason.end_turn) :
    ∀ (fuel calls : ℕ) (st : LoopState),
      (agentic_loop_aux gd oracle service fuel calls st).2 = calls + fuel := by
  intro fuel
  induction fuel with
  | zero => intro calls st; rfl
  | succ n ih =>
      intro calls st
      unfold agentic_loop_aux
      cases hsv : service calls with
      | mk sr cont =>
      cases sr with
      | end_turn =>
          exact absurd (by rw [hsv] : (service calls).stop_reason = .end_turn) (hs calls)
      | tool_use =>
          simp only [loop_iteration]
          rw [ih]
          omega
      | other =>
          simp only [loop_iteration]
          rw [ih]
          omega

theorem agentic_loop_aux_congr (gd : GameData) (oracle : AnalysisOracle)
    (service service' : ℕ → Response)
    (hs : ∀ n, (service n).stop_reason = (service' n).stop_reason)
    (hc : ∀ n, (service n).stop_reason ≠ StopReason.end_turn →
      (service n).content = (service' n).content) :
    ∀ (fuel calls : ℕ) (st : LoopState),
      agentic_loop_aux gd oracle service fuel calls st
        = agentic_loop_aux gd oracle service' fuel calls st := by
  intro fuel
  induction fuel with
  | zero => intro calls st; rfl
  | succ n ih =>
      intro calls st
      unfold agentic_loop_aux
      cases hsv : service calls with
      | mk sr cont =>
      cases hsv' : service' calls with
      | mk sr' cont' =>
      have hsr : sr = sr' := by
        have h := hs calls
        rw [hsv, hsv'] at h
        exact h
      subst hsr
      cases sr with
      | end_turn =>
          rw [loop_iteration_end_turn, loop_iteration_end_turn]
      | tool_use =>
          have hcont : cont = cont' := by
            have h := hc calls (by rw [hsv]; exact fun hh => nomatch hh)
            rw [hsv, hsv'] at h
            exact h
          subst hcont
          cases hli : loop_iteration gd oracle st { stop_reason := .tool_use, content := cont } with
          | done cs => rfl
          | next st' => exact ih (calls + 1) st'
      | other =>
          have hcont : cont = cont' := by
            have h := hc calls (by rw [hsv]; exact fun hh => nomatch hh)
            rw [hsv, hsv'] at h
            exact h
          subst hcont
          cases hli : loop_iteration gd oracle st { stop_reason := .other, content := cont } with
          | done cs => rfl
          | next st' => exact ih (calls + 1) st'

/-- Claim C6: for every behavior of the external LLM service, the agentic
loop makes at most 30 service calls; when the service never signals a natural
end it makes exactly 30 and still terminates; and any lesson run whose PGN
parses completes with status `completed` (never an error), whatever the
service does — reaching the iteration cap is a normal completion path. -/
theorem agentic_loop_iteration_cap (gd : GameData) (oracle : AnalysisOracle)
    (service : ℕ → Response) (user_prompt : String) :
    (agentic_loop gd oracle service user_prompt).2 ≤ 30 ∧
    ((∀ n, (service n).stop_reason ≠ StopReason.end_turn) →
      (agentic_loop gd oracle service user_prompt).2 = 30) ∧
    (∀ (read_game : String → Option ParsedGame) (pgn : String) (g : ParsedGame)
        (user_elo : ℤ) (focus_areas : List String),
      read_game pgn = some g →
      (generate_lesson_background read_game oracle service pgn user_elo focus_areas).status
        = "completed") := by
  refine ⟨?_, ?_, ?_⟩
  · exact agentic_loop_aux_calls_le gd oracle service 30 0 _
  · intro hs
    exact agentic_loop_aux_calls_eq gd oracle service hs 30 0 _
  · intro read_game pgn g user_elo focus_areas hrg
    unfold generate_lesson_background generate_lesson parse_pgn
    rw [hrg]

def cex_oracle : AnalysisOracle :=
  { analyze_position_full := fun _ _ => .ok ""
    analyze_user_move := fun _ _ _ => .ok ""
    get_opening_classification := fun _ => .ok ""
    position_type := fun _ => .ok ""
    show_annot := fun _ => ""
    show_question := fun _ => "" }

def cex_game : ParsedGame :=
  { initial_fen := "startfen", steps := [], result := "*", white := "w", black := "b" }

def cex_service_tools : ℕ → Response :=
  fun _ => { stop_reason := .tool_use, content := [] }

/-- Witness for claim C6: a service that never ends naturally drives exactly
30 calls, and the run still completes. -/
theorem agentic_loop_iteration_cap_witness :
    (agentic_loop (build_game_data cex_game "pgn") cex_oracle cex_service_tools "prompt").2
      = 30 ∧
    (generate_lesson_background (fun _ => some cex_game) cex_oracle cex_service_tools
        "pgn" 1500 []).status = "completed" :=
  ⟨(agentic_loop_iteration_cap (build_game_data cex_game "pgn") cex_oracle
      cex_service_tools "prompt").2.1 (fun n => by simp [cex_service_tools]),
   (agentic_loop_iteration_cap (build_game_data cex_game "pgn") cex_oracle
      cex_service_tools "prompt").2.2 (fun _ => some cex_game) "pgn" cex_game 1500 [] rfl⟩

/-- Claim C7: a tool dispatch that raises is caught and converted into an
error-tagged tool result appended after the results gathered so far (so the
fold proceeds with the next block unchanged), and a `tool_use` response never
aborts the loop: the iteration always continues to the next service call. -/
theorem tool_dispatch_failure_recovered (gd : GameData) (oracle : AnalysisOracle)
    (st : LoopState) (trs : List ToolResult) (id name : String) (input : ToolInput)
    (e : String) (h : execute_tool oracle st.toolkit name input = .error e) :
    process_block gd oracle (st, trs) (.tool_use id name input)
      = (st, trs ++ [{ tool_use_id := id, content := "Error: " ++ e, is_error := true }]) ∧
    (∀ blocks : List Block, ∃ st',
      loop_iteration gd oracle st { stop_reason := .tool_use, content := blocks }
        = .next st') := by
  constructor
  · simp only [process_block, h]
  · intro blocks
    exact ⟨_, rfl⟩

/-- Witness for claim C7: dispatching the unknown tool name `bogus` fails with
`Unknown tool: bogus` and is converted into an error-tagged tool result. -/
theorem tool_dispatch_failure_recovered_witness :
    execute_tool cex_oracle (initial_state "p").toolkit "bogus" {}
      = Except.error "Unknown tool: bogus" ∧
    process_block (build_game_data cex_game "pgn") cex_oracle
        (initial_state "p", []) (.tool_use "t1" "bogus" {})
      = (initial_state "p",
         [{ tool_use_id := "t1", content := "Error: " ++ "Unknown tool: bogus",
            is_error := true }]) :=
  ⟨rfl,
   (tool_dispatch_failure_recovered (build_game_data cex_game "pgn") cex_oracle
      (initial_state "p") [] "t1" "bogus" {} "Unknown tool: bogus" rfl).1⟩

/-- Claim C8: a PGN that does not parse makes `generate_lesson` fail with the
`Invalid PGN format` error before any conversational iteration (the result
does not depend on the service at all), and the background task marks the run
failed with the captured message and saves no lesson steps. -/
theorem invalid_pgn_fails_without_steps (read_game : String → Option ParsedGame)
    (oracle : AnalysisOracle) (service : ℕ → Response) (pgn : String)
    (user_elo : ℤ) (focus_areas : List String) (h : read_game pgn = none) :
    generate_lesson read_game oracle service pgn user_elo focus_areas
      = .error "Invalid PGN format" ∧
    (∀ service', generate_lesson read_game oracle service' pgn user_elo focus_areas
      = generate_lesson read_game oracle service pgn user_elo focus_areas) ∧
    generate_lesson_background read_game oracle service pgn user_elo focus_areas
      = { status := "failed", error_message := some "Invalid PGN format",
          saved_comments := [] } := by
  have hp : parse_pgn read_game pgn = .error "Invalid PGN format" := by
    unfold parse_pgn
    rw [h]
  refine ⟨?_, ?_, ?_⟩
  · unfold generate_lesson
    rw [hp]
  · intro service'
    unfold generate_lesson
    rw [hp]
  · unfold generate_lesson_background generate_lesson
    rw [hp]

/-- Witness for claim C8 at the unparsable input `not a pgn`. -/
theorem invalid_pgn_fails_without_steps_witness :
    ((fun _ : String => (none : Option ParsedGame)) "not a pgn" = none) ∧
    generate_lesson_background (fun _ => none) cex_oracle cex_service_tools
        "not a pgn" 1500 []
      = { status := "failed", error_message := some "Invalid PGN format",
          saved_comments := [] } :=
  ⟨rfl,
   (invalid_pgn_fails_without_steps (fun _ => none) cex_oracle cex_service_tools
      "not a pgn" 1500 [] rfl).2.2⟩

/-- Claim C10: when the service stops with `end_turn`, the content of that
final response is discarded (the loop result is independent of it, both for a
single iteration and for whole runs differing only in end-turn content); the
final comment is sealed only when the accumulated commentary is non-empty,
holds exactly that previously accumulated text, and is bound to the first
entry of the position sequence — which the parser makes the game's initial
position — not to the position at the current step index. -/
theorem end_turn_text_discarded (gd : GameData) (oracle : AnalysisOracle) (st : LoopState) :
    (∀ c c' : List Block,
      loop_iteration gd oracle st { stop_reason := .end_turn, content := c }
        = loop_iteration gd oracle st { stop_reason := .end_turn, content := c' }) ∧
    (∀ (p : PositionEntry) (rest : List PositionEntry) (c : List Block),
      gd.positions = p :: rest →
      pyStrip st.current_comment_text ≠ "" →
      loop_iteration gd oracle st { stop_reason := .end_turn, content := c }
        = .done (st.lesson_comments
            ++ [finalize_comment st.toolkit st.current_comment_text p.fen])) ∧
    (∀ c : List Block,
      pyStrip st.current_comment_text = "" →
      loop_iteration gd oracle st { stop_reason := .end_turn, content := c }
        = .done st.lesson_comments) ∧
    (∀ (g : ParsedGame) (pgn : String),
      (build_game_data g pgn).positions.head?
        = some { fen := g.initial_fen, move_number := 0, move := none }) ∧
    (∀ (service service' : ℕ → Response) (user_prompt : String),
      (∀ n, (service n).stop_reason = (service' n).stop_reason) →
      (∀ n, (service n).stop_reason ≠ StopReason.end_turn →
        (service n).content = (service' n).content) →
      agentic_loop gd oracle service user_prompt
        = agentic_loop gd oracle service' user_prompt) := by
  refine ⟨?_, ?_, ?_, ?_, ?_⟩
  · intro c c'
    rw [loop_iteration_end_turn, loop_iteration_end_turn]
  · intro p rest c hpos hne
    rw [loop_iteration_end_turn, hpos, if_pos hne]
    rfl
  · intro c h0
    rw [loop_iteration_end_turn, if_neg (fun hcon => hcon h0), List.append_nil]
  · intro g pgn
    rfl
  · intro service service' user_prompt hs hc
    exact agentic_loop_aux_congr gd oracle service service' hs hc 30 0 _

def cex_state : LoopState :=
  { messages := [], lesson_comments := [], current_comment_text := "Hello"
    toolkit := ToolkitState.initial }

/-- Witness for claim C10: an `end_turn` response whose text block `ignored`
never reaches the sealed comment, which is bound to the initial position. -/
theorem end_turn_text_discarded_witness :
    (loop_iteration (build_game_data cex_game "pgn") cex_oracle cex_state
        { stop_reason := .end_turn, content := [.text "ignored"] }
      = loop_iteration (build_game_data cex_game "pgn") cex_oracle cex_state
        { stop_reason := .end_turn, content := [] }) ∧
    (loop_iteration (build_game_data cex_game "pgn") cex_oracle cex_state
        { stop_reason := .end_turn, content := [.text "ignored"] }
      = .done [finalize_comment ToolkitState.initial "Hello" "startfen"]) :=
  ⟨(end_turn_text_discarded (build_game_data cex_game "pgn") cex_oracle cex_state).1
      [.text "ignored"] [],
   (end_turn_text_discarded (build_game_data cex_game "pgn") cex_oracle cex_state).2.1
      { fen := "startfen", move_number := 0, move := none } [] [.text "ignored"]
      rfl (by decide)⟩

end OpenlingsChess
